import Mathlib

/-!
Verification of the simulation core of monomaxia.c, a two-player grid duel
("Monomaxia on a Bay").  The per-frame simulation block of the main loop is:
HandleInput (set velocities, fire projectiles) → UpdateShips (movement and
terrain collision) → UpdateProjectiles (advance active shots) → CheckHits
(projectile-versus-opposing-ship resolution), all skipped once the gameOver
flag is set.  Rendering and raw keyboard polling are presentation glue and are
not modelled; an Intent record carries the per-tick velocity and the
(edge-triggered) fire flag that the input layer derives for each ship.
Player name strings are used only by rendering and are omitted from the
state. -/

namespace Monomaxia

/-- MAP_WIDTH constant from monomaxia.c. -/
def MAP_WIDTH : Int := 20

/-- MAP_HEIGHT constant from monomaxia.c. -/
def MAP_HEIGHT : Int := 10

/-- MAX_PROJECTILES constant from monomaxia.c. -/
def MAX_PROJECTILES : Nat := 5

/-- The cell contents of the map array that InitMap builds, as a function of
the (x, y) cell coordinate (the C array is indexed map[y][x]).  InitMap fills
the boundary ring with the wall character and the interior with the open
character, then stamps map[3][5], map[5][8] and map[6][10] (all interior
cells) with the obstacle character; this function returns exactly that final
pointwise content. -/
def mapCell (x y : Int) : Char :=
  if (x = 5 ∧ y = 3) ∨ (x = 8 ∧ y = 5) ∨ (x = 10 ∧ y = 6) then 'X'
  else if y = 0 ∨ y = MAP_HEIGHT - 1 ∨ x = 0 ∨ x = MAP_WIDTH - 1 then '#'
  else '.'

/-- The blocking test that UpdateShips and UpdateProjectiles both perform on a
target cell: out of range, or a wall cell, or an obstacle cell.  (The C code
short-circuits so that the array is only indexed in range; mapCell is total,
which does not change the value of the disjunction.) -/
def blocking (x y : Int) : Bool :=
  decide (x < 0 ∨ MAP_WIDTH ≤ x ∨ y < 0 ∨ MAP_HEIGHT ≤ y ∨
          mapCell x y = '#' ∨ mapCell x y = 'X')

/-- In range and on an open cell: the property the specification asserts of
ship and projectile positions.  It is exactly the negation of blocking (see
blocking_eq_false_iff). -/
def inBoundsOpen (x y : Int) : Prop :=
  0 ≤ x ∧ x < MAP_WIDTH ∧ 0 ≤ y ∧ y < MAP_HEIGHT ∧ mapCell x y = '.'

/-- Projectile struct: cell position, per-tick direction, active flag. -/
structure Projectile where
  x : Int
  y : Int
  dx : Int
  dy : Int
  active : Bool
deriving Repr, DecidableEq, Inhabited

/-- Ship struct: cell position, health, per-tick velocity, and the
MAX_PROJECTILES-slot projectile pool (a list of length 5 throughout). -/
structure Ship where
  x : Int
  y : Int
  hp : Int
  vx : Int
  vy : Int
  projectiles : List Projectile
deriving Repr, DecidableEq, Inhabited

/-- GameState struct: the two players' ships and the gameOver flag. -/
structure GameState where
  shipA : Ship
  shipB : Ship
  gameOver : Bool
deriving Repr, DecidableEq, Inhabited

/-- The per-tick input for one ship, as derived by the excluded presentation
layer: a velocity (each component is MAX_SPEED, 0 or -MAX_SPEED in the real
key handler) and the edge-triggered fire flag (IsKeyPressed). -/
structure Intent where
  vx : Int
  vy : Int
  fire : Bool
deriving Repr, DecidableEq, Inhabited

/-- InitProjectile: slots start inactive at position (-1,-1), direction 0. -/
def InitProjectile : Projectile :=
  { x := -1, y := -1, dx := 0, dy := 0, active := false }

/-- InitShip: place the ship, hp 3, zero velocity, all slots inactive. -/
def InitShip (startX startY : Int) : Ship :=
  { x := startX, y := startY, hp := 3, vx := 0, vy := 0,
    projectiles := List.replicate MAX_PROJECTILES InitProjectile }

/-- InitGame: ship A at (2,2), ship B at (MAP_WIDTH-2, MAP_HEIGHT-2),
gameOver false.  (The map is static and modelled by mapCell.) -/
def InitGame : GameState :=
  { shipA := InitShip 2 2,
    shipB := InitShip (MAP_WIDTH - 2) (MAP_HEIGHT - 2),
    gameOver := false }

/-- The fire loop inside HandleInput, as a function of the projectile pool:
scan the slots in index order; the first inactive slot is initialised to the
given origin and direction and made active, later slots are untouched; if
every slot is active the pool is returned unchanged. -/
def fireProjectiles (px py dx dy : Int) : List Projectile → List Projectile
  | [] => []
  | p :: rest =>
      if p.active = true then p :: fireProjectiles px py dx dy rest
      else { x := px, y := py, dx := dx, dy := dy, active := true } :: rest

/-- The velocity-setting part of HandleInput for one ship: the per-frame
reset to 0 followed by the key tests amounts to overwriting vx, vy with this
tick's intent. -/
def setShipVelocity (s : Ship) (it : Intent) : Ship :=
  { s with vx := it.vx, vy := it.vy }

/-- The firing part of HandleInput for one ship: when the fire key was
pressed, shoot from the ship's current position in the direction of the
just-set velocity, with dy defaulted to -1 when the velocity is zero. -/
def shipFire (s : Ship) (it : Intent) : Ship :=
  if it.fire = true then
    { s with projectiles := fireProjectiles s.x s.y s.vx (if s.vx = 0 ∧ s.vy = 0 then -1 else s.vy) s.projectiles }
  else s

/-- HandleInput for one ship: velocities are written first, then the fire
test runs with those velocities. -/
def handleShipInput (s : Ship) (it : Intent) : Ship :=
  shipFire (setShipVelocity s it) it

/-- HandleInput: both ships process their intents independently. -/
def HandleInput (g : GameState) (ia ib : Intent) : GameState :=
  { g with shipA := handleShipInput g.shipA ia,
           shipB := handleShipInput g.shipB ib }

/-- The body of the UpdateShips loop for one ship, threading the gameOver
flag: compute the target cell position + velocity; if it is blocking, lose
1 hp and stay (setting gameOver when hp drops to 0 or below), otherwise move
there. -/
def updateShipStep (s : Ship) (over : Bool) : Ship × Bool :=
  if blocking (s.x + s.vx) (s.y + s.vy) = true then
    ({ s with hp := s.hp - 1 }, over || decide (s.hp - 1 ≤ 0))
  else
    ({ s with x := s.x + s.vx, y := s.y + s.vy }, over)

/-- UpdateShips: run the movement/collision body on ship A then ship B. -/
def UpdateShips (g : GameState) : GameState :=
  { g with
    shipA := (updateShipStep g.shipA g.gameOver).1,
    shipB := (updateShipStep g.shipB (updateShipStep g.shipA g.gameOver).2).1,
    gameOver := (updateShipStep g.shipB (updateShipStep g.shipA g.gameOver).2).2 }

/-- The body of the UpdateProjectiles loop for one projectile: an active
projectile steps to position + direction, deactivating instead when the next
cell is blocking; an inactive projectile is untouched. -/
def advanceProjectile (p : Projectile) : Projectile :=
  if p.active = true then
    if blocking (p.x + p.dx) (p.y + p.dy) = true then { p with active := false }
    else { p with x := p.x + p.dx, y := p.y + p.dy }
  else p

/-- UpdateProjectiles: advance every slot of both ships. -/
def UpdateProjectiles (g : GameState) : GameState :=
  { g with
    shipA := { g.shipA with projectiles := g.shipA.projectiles.map advanceProjectile },
    shipB := { g.shipB with projectiles := g.shipB.projectiles.map advanceProjectile } }

/-- One direction of the CheckHits loops: scan the attacker's slots in index
order against the target position (tx, ty), threading the target's health.
A hit deactivates the slot and decrements the health; when the health drops
to 0 or below the loop stops at once (first component true, signalling that
gameOver was set and that CheckHits returned), leaving the remaining slots
untouched. -/
def hitScan (tx ty : Int) : List Projectile → Int → Bool × List Projectile × Int
  | [], hp => (false, [], hp)
  | p :: rest, hp =>
      if p.active = true ∧ p.x = tx ∧ p.y = ty then
        if hp - 1 ≤ 0 then (true, { p with active := false } :: rest, hp - 1)
        else
          ((hitScan tx ty rest (hp - 1)).1,
           { p with active := false } :: (hitScan tx ty rest (hp - 1)).2.1,
           (hitScan tx ty rest (hp - 1)).2.2)
      else
        ((hitScan tx ty rest hp).1,
         p :: (hitScan tx ty rest hp).2.1,
         (hitScan tx ty rest hp).2.2)

/-- CheckHits: if both ships are already at 0 hp or below, just set gameOver.
Otherwise scan A's projectiles against B's cell; if that drops B to 0 hp or
below, gameOver is set and the function returns at once, so B's projectiles
are not scanned that tick.  Otherwise B's projectiles are scanned against A's
cell symmetrically (with gameOver set when A drops to 0 hp or below).  The
first scan touches only A's projectiles and B's health, so the second scan
sees A's unchanged position and health and B's unchanged projectiles. -/
def CheckHits (g : GameState) : GameState :=
  if g.shipA.hp ≤ 0 ∧ g.shipB.hp ≤ 0 then { g with gameOver := true }
  else if (hitScan g.shipB.x g.shipB.y g.shipA.projectiles g.shipB.hp).1 = true then
    { g with
      shipA := { g.shipA with
                 projectiles := (hitScan g.shipB.x g.shipB.y g.shipA.projectiles g.shipB.hp).2.1 },
      shipB := { g.shipB with
                 hp := (hitScan g.shipB.x g.shipB.y g.shipA.projectiles g.shipB.hp).2.2 },
      gameOver := true }
  else
    { g with
      shipA := { g.shipA with
                 projectiles := (hitScan g.shipB.x g.shipB.y g.shipA.projectiles g.shipB.hp).2.1,
                 hp := (hitScan g.shipA.x g.shipA.y g.shipB.projectiles g.shipA.hp).2.2 },
      shipB := { g.shipB with
                 projectiles := (hitScan g.shipA.x g.shipA.y g.shipB.projectiles g.shipA.hp).2.1,
                 hp := (hitScan g.shipB.x g.shipB.y g.shipA.projectiles g.shipB.hp).2.2 },
      gameOver := g.gameOver || (hitScan g.shipA.x g.shipA.y g.shipB.projectiles g.shipA.hp).1 }

/-- One iteration of the main loop's simulation block: when gameOver is set
the four update phases are skipped and the state is untouched; otherwise they
run in the fixed order HandleInput, UpdateShips, UpdateProjectiles,
CheckHits. -/
def step (g : GameState) (ia ib : Intent) : GameState :=
  if g.gameOver = true then g
  else CheckHits (UpdateProjectiles (UpdateShips (HandleInput g ia ib)))

/-- Iterated simulation: run one step per element of the intent trace. -/
def run (g : GameState) : List (Intent × Intent) → GameState
  | [] => g
  | (ia, ib) :: rest => run (step g ia ib) rest

/-- Modelled from the spec (for comparison with step, not from the source):
the step ordering that section 4.4 of the specification describes, in which
ship movement (phase 1) runs before firing (phase 2), so a shot spawned on a
tick in which the ship moves would originate at the post-movement position.
Velocities are still taken from this tick's intent. -/
def stepSpecOrdered (g : GameState) (ia ib : Intent) : GameState :=
  if g.gameOver = true then g
  else
    CheckHits (UpdateProjectiles
      { UpdateShips
          { g with shipA := setShipVelocity g.shipA ia,
                   shipB := setShipVelocity g.shipB ib } with
        shipA := shipFire (UpdateShips
          { g with shipA := setShipVelocity g.shipA ia,
                   shipB := setShipVelocity g.shipB ib }).shipA ia,
        shipB := shipFire (UpdateShips
          { g with shipA := setShipVelocity g.shipA ia,
                   shipB := setShipVelocity g.shipB ib }).shipB ib })

/-- The projectile-pool part of the containment invariant: every active slot
sits on a non-blocking cell. -/
def ProjectilesInv (ps : List Projectile) : Prop :=
  ∀ p ∈ ps, p.active = true → blocking p.x p.y = false

/-- The containment invariant: both ships and all their active projectiles
sit on non-blocking cells. -/
def Inv (g : GameState) : Prop :=
  blocking g.shipA.x g.shipA.y = false ∧ blocking g.shipB.x g.shipB.y = false ∧
  ProjectilesInv g.shipA.projectiles ∧ ProjectilesInv g.shipB.projectiles

/-- Intent that presses nothing. -/
def iNone : Intent := { vx := 0, vy := 0, fire := false }

/-- Intent that moves right and presses fire. -/
def iFireRight : Intent := { vx := 1, vy := 0, fire := true }

/-- Intent that moves left (into the western wall, for a ship in column 1). -/
def iRamLeft : Intent := { vx := -1, vy := 0, fire := false }

/-- Intent that only presses fire while standing still. -/
def iFireStill : Intent := { vx := 0, vy := 0, fire := true }

/-- The tie scenario exactly as the specification words it: both ships at
health 1, and each ship owns an active projectile sitting on the opposing
ship's current cell (A's shot on B's cell (5,2) heading further right, B's
shot on A's cell (2,2) heading further left). -/
def tieClaimState : GameState :=
  { shipA := { x := 2, y := 2, hp := 1, vx := 0, vy := 0,
               projectiles := ⟨5, 2, 1, 0, true⟩ :: List.replicate 4 InitProjectile },
    shipB := { x := 5, y := 2, hp := 1, vx := 0, vy := 0,
               projectiles := ⟨2, 2, -1, 0, true⟩ :: List.replicate 4 InitProjectile },
    gameOver := false }

/-- The tie scenario adjusted to the code's actual hit timing: both ships at
health 1, and each ship owns an active projectile one cell away from the
opposing ship, moving onto its cell this tick (A's shot at (4,2) heading
right towards B at (5,2), B's shot at (3,2) heading left towards A at
(2,2)). -/
def tieAdjustedState : GameState :=
  { shipA := { x := 2, y := 2, hp := 1, vx := 0, vy := 0,
               projectiles := ⟨4, 2, 1, 0, true⟩ :: List.replicate 4 InitProjectile },
    shipB := { x := 5, y := 2, hp := 1, vx := 0, vy := 0,
               projectiles := ⟨3, 2, -1, 0, true⟩ :: List.replicate 4 InitProjectile },
    gameOver := false }

/-- A state one tick before a wall death: ship A at (1,5) with health 1 will
ram the western wall this tick; A's shot at (4,5) is about to land on B at
(5,5), and B's shot at (2,5) is about to land on A at (1,5). -/
def finalTickState : GameState :=
  { shipA := { x := 1, y := 5, hp := 1, vx := 0, vy := 0,
               projectiles := ⟨4, 5, 1, 0, true⟩ :: List.replicate 4 InitProjectile },
    shipB := { x := 5, y := 5, hp := 3, vx := 0, vy := 0,
               projectiles := ⟨2, 5, -1, 0, true⟩ :: List.replicate 4 InitProjectile },
    gameOver := false }

/-- An arbitrary post-terminal state: the initial placement with gameOver
already set. -/
def frozenState : GameState :=
  { shipA := InitShip 2 2, shipB := InitShip 18 8, gameOver := true }

/-- A ship one cell east of the western wall, pressing into it this tick. -/
def shipAtWall : Ship :=
  { x := 1, y := 1, hp := 3, vx := -1, vy := 0,
    projectiles := List.replicate 5 InitProjectile }

/-- A ship moving into an open cell this tick. -/
def shipToOpen : Ship :=
  { x := 1, y := 1, hp := 3, vx := 1, vy := 0,
    projectiles := List.replicate 5 InitProjectile }

/-- A ship standing still on an open cell. -/
def shipStill : Ship :=
  { x := 3, y := 3, hp := 3, vx := 0, vy := 0,
    projectiles := List.replicate 5 InitProjectile }

theorem mapCell_cases (x y : Int) :
    mapCell x y = 'X' ∨ mapCell x y = '#' ∨ mapCell x y = '.' := by
  unfold mapCell
  split
  · exact Or.inl rfl
  · split
    · exact Or.inr (Or.inl rfl)
    · exact Or.inr (Or.inr rfl)

theorem blocking_eq_false_iff (x y : Int) :
    blocking x y = false ↔ inBoundsOpen x y := by
  unfold blocking inBoundsOpen
  rw [decide_eq_false_iff_not]
  push_neg
  constructor
  · rintro ⟨h1, h2, h3, h4, h5, h6⟩
    have hc : mapCell x y = '.' := by
      rcases mapCell_cases x y with hc | hc | hc
      · exact absurd hc h6
      · exact absurd hc h5
      · exact hc
    exact ⟨h1, h2, h3, h4, hc⟩
  · rintro ⟨h1, h2, h3, h4, h5⟩
    refine ⟨h1, h2, h3, h4, ?_, ?_⟩ <;> rw [h5] <;> decide

theorem fireProjectiles_all_active (px py dx dy : Int) (ps : List Projectile)
    (h : ∀ q ∈ ps, q.active = true) : fireProjectiles px py dx dy ps = ps := by
  induction ps with
  | nil => rfl
  | cons p rest ih =>
      have hp : p.active = true := h p (List.mem_cons_self p rest)
      have hrest : ∀ q ∈ rest, q.active = true := fun q hq => h q (List.mem_cons_of_mem p hq)
      simp [fireProjectiles, hp, ih hrest]

theorem fireProjectiles_first_free (px py dx dy : Int) (l1 l2 : List Projectile)
    (p : Projectile) (h1 : ∀ q ∈ l1, q.active = true) (hp : p.active = false) :
    fireProjectiles px py dx dy (l1 ++ p :: l2) =
      l1 ++ { x := px, y := py, dx := dx, dy := dy, active := true } :: l2 := by
  induction l1 with
  | nil => simp [fireProjectiles, hp]
  | cons q rest ih =>
      have hq : q.active = true := h1 q (List.mem_cons_self q rest)
      have hrest : ∀ r ∈ rest, r.active = true := fun r hr => h1 r (List.mem_cons_of_mem q hr)
      simp [fireProjectiles, hq, ih hrest]

theorem updateShipStep_projectiles (s : Ship) (over : Bool) :
    (updateShipStep s over).1.projectiles = s.projectiles := by
  unfold updateShipStep
  split <;> rfl

theorem updateShipStep_inv (s : Ship) (over : Bool)
    (h : blocking s.x s.y = false) :
    blocking (updateShipStep s over).1.x (updateShipStep s over).1.y = false := by
  unfold updateShipStep
  split
  · exact h
  · rename_i hb
    exact Bool.eq_false_iff.mpr hb

theorem advanceProjectile_inv (p : Projectile) :
    (advanceProjectile p).active = true →
    blocking (advanceProjectile p).x (advanceProjectile p).y = false := by
  unfold advanceProjectile
  split
  · split
    · intro h
      exact absurd h (by simp)
    · rename_i hb
      intro _
      exact Bool.eq_false_iff.mpr hb
  · rename_i ha
    intro h
    exact absurd h ha

theorem updateProjectiles_projInv (ps : List Projectile) :
    ProjectilesInv (ps.map advanceProjectile) := by
  intro q hq ha
  rcases List.mem_map.mp hq with ⟨p, _, rfl⟩
  exact advanceProjectile_inv p ha

theorem hitScan_projInv (tx ty : Int) (ps : List Projectile) :
    ∀ hp : Int, ProjectilesInv ps → ProjectilesInv (hitScan tx ty ps hp).2.1 := by
  induction ps with
  | nil =>
      intro hp _ q hq
      simp [hitScan] at hq
  | cons p rest ih =>
      intro hp h q hq hqa
      have hphead : p.active = true → blocking p.x p.y = false :=
        h p (List.mem_cons_self p rest)
      have hrest : ProjectilesInv rest := fun r hr => h r (List.mem_cons_of_mem p hr)
      simp only [hitScan] at hq
      split at hq
      · split at hq
        · simp only [List.mem_cons] at hq
          rcases hq with rfl | hq
          · simp at hqa
          · exact hrest q hq hqa
        · simp only [List.mem_cons] at hq
          rcases hq with rfl | hq
          · simp at hqa
          · exact ih (hp - 1) hrest q hq hqa
      · simp only [List.mem_cons] at hq
        rcases hq with rfl | hq
        · exact hphead hqa
        · exact ih hp hrest q hq hqa

theorem checkHits_inv (g : GameState) (h : Inv g) : Inv (CheckHits g) := by
  obtain ⟨hA, hB, hPA, hPB⟩ := h
  unfold CheckHits
  split
  · exact ⟨hA, hB, hPA, hPB⟩
  · split
    · exact ⟨hA, hB, hitScan_projInv _ _ _ _ hPA, hPB⟩
    · exact ⟨hA, hB, hitScan_projInv _ _ _ _ hPA, hitScan_projInv _ _ _ _ hPB⟩

theorem handleShipInput_x (s : Ship) (it : Intent) : (handleShipInput s it).x = s.x := by
  unfold handleShipInput shipFire setShipVelocity
  split <;> rfl

theorem handleShipInput_y (s : Ship) (it : Intent) : (handleShipInput s it).y = s.y := by
  unfold handleShipInput shipFire setShipVelocity
  split <;> rfl

theorem updateProjectiles_inv (g : GameState)
    (hA : blocking g.shipA.x g.shipA.y = false)
    (hB : blocking g.shipB.x g.shipB.y = false) :
    Inv (UpdateProjectiles g) :=
  ⟨hA, hB, updateProjectiles_projInv g.shipA.projectiles,
   updateProjectiles_projInv g.shipB.projectiles⟩

theorem step_inv (g : GameState) (ia ib : Intent) (h : Inv g) : Inv (step g ia ib) := by
  unfold step
  split
  · exact h
  · obtain ⟨hA, hB, _, _⟩ := h
    apply checkHits_inv
    apply updateProjectiles_inv
    · show blocking (updateShipStep (handleShipInput g.shipA ia) _).1.x
        (updateShipStep (handleShipInput g.shipA ia) _).1.y = false
      apply updateShipStep_inv
      rw [handleShipInput_x, handleShipInput_y]
      exact hA
    · show blocking (updateShipStep (handleShipInput g.shipB ib) _).1.x
        (updateShipStep (handleShipInput g.shipB ib) _).1.y = false
      apply updateShipStep_inv
      rw [handleShipInput_x, handleShipInput_y]
      exact hB

theorem initGame_inv : Inv InitGame := by
  refine ⟨by decide, by decide, ?_, ?_⟩ <;>
    · intro p hp hpa
      have := List.eq_of_mem_replicate hp
      subst this
      simp [InitProjectile] at hpa

theorem run_inv (l : List (Intent × Intent)) (g : GameState) (h : Inv g) :
    Inv (run g l) := by
  induction l generalizing g with
  | nil => exact h
  | cons pr rest ih =>
      obtain ⟨ia, ib⟩ := pr
      exact ih (step g ia ib) (step_inv g ia ib h)

/-- C1 (counterexample): in the state the claim describes — both ships at
health 1 and each ship owning an active projectile sitting on the opposing
ship's current cell — one Step does not bring the healths to 0: projectiles
are advanced before hits are tested, so both shots move off the ships' cells,
no hit lands, both healths stay 1 and gameOver stays false.  The first four
conjuncts certify that tieClaimState is an instance of the claim's
hypothesis; the last three refute its conclusion. -/
theorem tie_scenario_counterexample :
    tieClaimState.shipA.hp = 1 ∧ tieClaimState.shipB.hp = 1 ∧
    (∃ p ∈ tieClaimState.shipA.projectiles,
       p.active = true ∧ p.x = tieClaimState.shipB.x ∧ p.y = tieClaimState.shipB.y) ∧
    (∃ p ∈ tieClaimState.shipB.projectiles,
       p.active = true ∧ p.x = tieClaimState.shipA.x ∧ p.y = tieClaimState.shipA.y) ∧
    (step tieClaimState iNone iNone).shipA.hp = 1 ∧
    (step tieClaimState iNone iNone).shipB.hp = 1 ∧
    (step tieClaimState iNone iNone).gameOver = false := by decide

/-- C1 (amended): hits are resolved against post-advance projectile
positions, and hit resolution returns early the moment a ship's health drops
to 0 or below.  With both ships at health 1 and each projectile one cell away
moving onto the opposing ship's cell, one Step checks A's projectiles first:
B's health reaches 0 and gameOver is set, the B-against-A direction is
skipped (B's shot is left active, unconsumed, on A's cell), and A keeps
health 1 — a single winner rather than a tie. -/
theorem tie_scenario_amended :
    (step tieAdjustedState iNone iNone).shipB.hp = 0 ∧
    (step tieAdjustedState iNone iNone).shipA.hp = 1 ∧
    (step tieAdjustedState iNone iNone).gameOver = true ∧
    (step tieAdjustedState iNone iNone).shipB.projectiles =
      ⟨2, 2, -1, 0, true⟩ :: List.replicate 4 InitProjectile := by decide

/-- C2 (counterexample): firing is not applied after movement.  From the
initial state, intent (vx 1, vy 0, fire) makes ship A both move and shoot in
one Step.  The code spawns the shot at the pre-movement cell (2,2), so after
this tick's advance it sits at (3,2) — the ship's own new cell; had movement
preceded firing as the claim states (stepSpecOrdered), the shot would have
spawned at (3,2) and sit at (4,2) after the advance.  The two step functions
disagree at this input. -/
theorem fire_order_counterexample :
    (step InitGame iFireRight iNone).shipA.x = 3 ∧
    (step InitGame iFireRight iNone).shipA.projectiles =
      ⟨3, 2, 1, 0, true⟩ :: List.replicate 4 InitProjectile ∧
    (stepSpecOrdered InitGame iFireRight iNone).shipA.projectiles =
      ⟨4, 2, 1, 0, true⟩ :: List.replicate 4 InitProjectile ∧
    step InitGame iFireRight iNone ≠ stepSpecOrdered InitGame iFireRight iNone := by
  decide

/-- C2 (amended): within every Step, firing (inside HandleInput) is applied
before ship movement, so a shot spawned on a tick in which the ship also
moves originates at the ship's pre-movement position, with direction equal to
that tick's velocity and dy falling back to -1 when the velocity is (0,0);
the subsequent movement phase does not touch the projectile pool.  Stated
here for ship A firing into its first free slot (position l1 of all-active
slots, then the free slot p, then l2). -/
theorem fire_before_movement (g : GameState) (ia ib : Intent)
    (l1 l2 : List Projectile) (p : Projectile)
    (hover : g.gameOver = false)
    (hsplit : g.shipA.projectiles = l1 ++ p :: l2)
    (hl1 : ∀ q ∈ l1, q.active = true) (hinact : p.active = false)
    (hfire : ia.fire = true) :
    step g ia ib = CheckHits (UpdateProjectiles (UpdateShips (HandleInput g ia ib))) ∧
    (HandleInput g ia ib).shipA.projectiles =
      l1 ++ { x := g.shipA.x, y := g.shipA.y, dx := ia.vx, dy := if ia.vx = 0 ∧ ia.vy = 0 then -1 else ia.vy, active := true } :: l2 ∧
    (UpdateShips (HandleInput g ia ib)).shipA.projectiles =
      (HandleInput g ia ib).shipA.projectiles := by
  refine ⟨?_, ?_, ?_⟩
  · unfold step
    simp [hover]
  · show (shipFire (setShipVelocity g.shipA ia) ia).projectiles = _
    unfold shipFire
    rw [if_pos hfire]
    dsimp only [setShipVelocity]
    rw [hsplit]
    exact fireProjectiles_first_free _ _ _ _ l1 l2 p hl1 hinact
  · show (updateShipStep (HandleInput g ia ib).shipA (HandleInput g ia ib).gameOver).1.projectiles =
      (HandleInput g ia ib).shipA.projectiles
    exact updateShipStep_projectiles _ _

/-- Witness for fire_before_movement at the initial state with intent
(vx 1, vy 0, fire) for ship A. -/
theorem fire_before_movement_witness :
    step InitGame iFireRight iNone =
      CheckHits (UpdateProjectiles (UpdateShips (HandleInput InitGame iFireRight iNone))) ∧
    (HandleInput InitGame iFireRight iNone).shipA.projectiles =
      [] ++ ({ x := 2, y := 2, dx := 1, dy := 0, active := true } : Projectile) :: List.replicate 4 InitProjectile ∧
    (UpdateShips (HandleInput InitGame iFireRight iNone)).shipA.projectiles =
      (HandleInput InitGame iFireRight iNone).shipA.projectiles :=
  fire_before_movement InitGame iFireRight iNone [] (List.replicate 4 InitProjectile)
    InitProjectile rfl rfl (by simp) rfl rfl

/-- C3 (counterexample): ship B is not placed at (17,7) by InitGame. -/
theorem initial_placement_counterexample :
    ¬(InitGame.shipB.x = 17 ∧ InitGame.shipB.y = 7) := by decide

/-- C3 (amended): at match initialization on the 20×10 bordered grid, ship A
is placed at (2,2) with health 3 and ship B is placed at
(MAP_WIDTH-2, MAP_HEIGHT-2) = (18,8) with health 3. -/
theorem initial_placement :
    InitGame.shipA.x = 2 ∧ InitGame.shipA.y = 2 ∧ InitGame.shipA.hp = 3 ∧
    InitGame.shipB.x = 18 ∧ InitGame.shipB.y = 8 ∧ InitGame.shipB.hp = 3 ∧
    InitGame.gameOver = false := by decide

/-- C4: once gameOver is true, a further step returns the state unchanged —
both ship positions, healths, velocities and every projectile slot included,
since the whole simulation block is skipped. -/
theorem terminal_freeze (g : GameState) (ia ib : Intent) (h : g.gameOver = true) :
    step g ia ib = g := by
  unfold step
  simp [h]

/-- Witness for terminal_freeze at a concrete post-terminal state. -/
theorem terminal_freeze_witness :
    frozenState.gameOver = true ∧ step frozenState iNone iNone = frozenState :=
  ⟨rfl, terminal_freeze frozenState iNone iNone rfl⟩

/-- C5: starting from the initial placement, after any sequence of Steps both
ships' positions are in [0, MAP_WIDTH) × [0, MAP_HEIGHT) and the map cell
there is the open character — never a wall or obstacle. -/
theorem boundary_containment (l : List (Intent × Intent)) :
    inBoundsOpen (run InitGame l).shipA.x (run InitGame l).shipA.y ∧
    inBoundsOpen (run InitGame l).shipB.x (run InitGame l).shipB.y := by
  obtain ⟨h1, h2, -, -⟩ := run_inv l InitGame initGame_inv
  exact ⟨(blocking_eq_false_iff _ _).mp h1, (blocking_eq_false_iff _ _).mp h2⟩

/-- Witness for boundary_containment at the empty trace. -/
theorem boundary_containment_witness :
    inBoundsOpen InitGame.shipA.x InitGame.shipA.y ∧
    inBoundsOpen InitGame.shipB.x InitGame.shipB.y :=
  boundary_containment []

/-- C6: in the movement phase, a ship whose target cell position + velocity
is blocking loses exactly 1 hp and keeps its position (with gameOver raised
when hp drops to 0 or below); otherwise it moves to the target with hp
unchanged.  This holds for every tick with no cooldown, and the
zero-velocity case is a harmless no-op when the ship's own cell is open. -/
theorem collision_damage (s : Ship) (over : Bool) :
    (blocking (s.x + s.vx) (s.y + s.vy) = true →
       updateShipStep s over =
         ({ s with hp := s.hp - 1 }, over || decide (s.hp - 1 ≤ 0))) ∧
    (blocking (s.x + s.vx) (s.y + s.vy) = false →
       updateShipStep s over =
         ({ s with x := s.x + s.vx, y := s.y + s.vy }, over)) ∧
    (s.vx = 0 → s.vy = 0 → blocking s.x s.y = false →
       (updateShipStep s over).1 = s) := by
  refine ⟨?_, ?_, ?_⟩
  · intro h
    unfold updateShipStep
    rw [if_pos h]
  · intro h
    unfold updateShipStep
    rw [if_neg (by simp [h])]
  · intro h1 h2 h3
    obtain ⟨x, y, hp, vx, vy, ps⟩ := s
    dsimp only at h1 h2 h3
    subst h1
    subst h2
    unfold updateShipStep
    simp [add_zero, h3]

/-- Witness for collision_damage: a ship ramming the western wall, a ship
moving into an open cell, and a ship standing still. -/
theorem collision_damage_witness :
    (blocking 0 1 = true ∧
     updateShipStep shipAtWall false =
       ({ shipAtWall with hp := shipAtWall.hp - 1 }, false || decide (shipAtWall.hp - 1 ≤ 0))) ∧
    (blocking 2 1 = false ∧
     updateShipStep shipToOpen false =
       ({ shipToOpen with x := shipToOpen.x + shipToOpen.vx, y := shipToOpen.y + shipToOpen.vy }, false)) ∧
    (updateShipStep shipStill false).1 = shipStill := by
  refine ⟨⟨by decide, ?_⟩, ⟨by decide, ?_⟩, ?_⟩
  · exact (collision_damage shipAtWall false).1 (by decide)
  · exact (collision_damage shipToOpen false).2.1 (by decide)
  · exact (collision_damage shipStill false).2.2 rfl rfl (by decide)

/-- C7: in the advancement phase, an inactive projectile is untouched; an
active projectile whose next cell position + direction is blocking is
deactivated (in particular, one aimed at a blocking cell one step away
becomes inactive after exactly this one advance and not before, since it was
still active on entry); and an active projectile whose next cell is free
moves there and stays active. -/
theorem projectile_advance (p : Projectile) :
    (p.active = false → advanceProjectile p = p) ∧
    (p.active = true → blocking (p.x + p.dx) (p.y + p.dy) = true →
       advanceProjectile p = { p with active := false }) ∧
    (p.active = true → blocking (p.x + p.dx) (p.y + p.dy) = false →
       advanceProjectile p = { p with x := p.x + p.dx, y := p.y + p.dy }) := by
  refine ⟨?_, ?_, ?_⟩
  · intro h
    unfold advanceProjectile
    rw [if_neg (by simp [h])]
  · intro h1 h2
    unfold advanceProjectile
    rw [if_pos h1, if_pos h2]
  · intro h1 h2
    unfold advanceProjectile
    rw [if_pos h1, if_neg (by simp [h2])]

/-- Witness for projectile_advance: an inactive slot, a shot entering the
western wall, and a shot entering an open cell. -/
theorem projectile_advance_witness :
    advanceProjectile InitProjectile = InitProjectile ∧
    advanceProjectile ⟨1, 1, -1, 0, true⟩ =
      { (⟨1, 1, -1, 0, true⟩ : Projectile) with active := false } ∧
    advanceProjectile ⟨1, 1, 1, 0, true⟩ =
      { (⟨1, 1, 1, 0, true⟩ : Projectile) with x := 2, y := 1 } :=
  ⟨(projectile_advance InitProjectile).1 rfl,
   (projectile_advance _).2.1 rfl (by decide),
   (projectile_advance _).2.2 rfl (by decide)⟩

/-- C8: the fire scan walks the slots in ascending index order.  If the pool
splits as all-active slots l1, then an inactive slot p, then l2, the first
inactive slot is replaced by the new active projectile at the given origin
and direction while every other slot (before and after) is unchanged; if all
slots are active, firing returns the pool unchanged — the silent no-op that
caps a ship at MAX_PROJECTILES = 5 shots in flight, the pools being length-5
lists. -/
theorem fire_slot_discipline (px py dx dy : Int) :
    (∀ ps : List Projectile, (∀ q ∈ ps, q.active = true) →
       fireProjectiles px py dx dy ps = ps) ∧
    (∀ (l1 l2 : List Projectile) (p : Projectile),
       (∀ q ∈ l1, q.active = true) → p.active = false →
       fireProjectiles px py dx dy (l1 ++ p :: l2) =
         l1 ++ { x := px, y := py, dx := dx, dy := dy, active := true } :: l2) :=
  ⟨fun ps h => fireProjectiles_all_active px py dx dy ps h,
   fun l1 l2 p h1 h2 => fireProjectiles_first_free px py dx dy l1 l2 p h1 h2⟩

/-- Witness for fire_slot_discipline: a full pool of five active shots is
unchanged, and a pool whose second slot is the first free one gets exactly
that slot replaced. -/
theorem fire_slot_discipline_witness :
    fireProjectiles 3 3 1 0 (List.replicate 5 ⟨0, 0, 1, 0, true⟩) =
      List.replicate 5 ⟨0, 0, 1, 0, true⟩ ∧
    fireProjectiles 3 3 1 0 ([⟨0, 0, 1, 0, true⟩] ++ InitProjectile :: [InitProjectile]) =
      [⟨0, 0, 1, 0, true⟩] ++
        ({ x := 3, y := 3, dx := 1, dy := 0, active := true } : Projectile) :: [InitProjectile] :=
  ⟨(fire_slot_discipline 3 3 1 0).1 _ (by decide),
   (fire_slot_discipline 3 3 1 0).2 [⟨0, 0, 1, 0, true⟩] [InitProjectile] InitProjectile
     (by decide) rfl⟩

/-- C9: starting from the initial placement, after any sequence of Steps
every active projectile of either ship sits in
[0, MAP_WIDTH) × [0, MAP_HEIGHT) on an open cell: shots are created on their
ship's (open) cell and advancement deactivates them rather than ever placing
them on a wall, obstacle, or out-of-range cell. -/
theorem projectile_containment (l : List (Intent × Intent)) :
    (∀ p ∈ (run InitGame l).shipA.projectiles, p.active = true → inBoundsOpen p.x p.y) ∧
    (∀ p ∈ (run InitGame l).shipB.projectiles, p.active = true → inBoundsOpen p.x p.y) := by
  obtain ⟨-, -, h3, h4⟩ := run_inv l InitGame initGame_inv
  exact ⟨fun p hp ha => (blocking_eq_false_iff _ _).mp (h3 p hp ha),
         fun p hp ha => (blocking_eq_false_iff _ _).mp (h4 p hp ha)⟩

/-- Witness for projectile_containment: after one tick in which ship A fires
from standstill, its shot sits at (2,1), which is in range and open. -/
theorem projectile_containment_witness :
    (⟨2, 1, 0, -1, true⟩ : Projectile) ∈ (run InitGame [(iFireStill, iNone)]).shipA.projectiles ∧
    inBoundsOpen 2 1 :=
  ⟨by decide,
   (projectile_containment [(iFireStill, iNone)]).1 ⟨2, 1, 0, -1, true⟩ (by decide) rfl⟩

/-- C10: a tick in which a ship dies of wall collision still runs to
completion.  In finalTickState, ship A (health 1) rams the western wall and
drops to 0 during the movement phase; the same tick still advances both
shots and resolves hits, so A's own shot damages B (3 to 2) and B's shot
hits the already-dead A, leaving it at health -1, all within the same tick;
gameOver is set, and only the next Step is frozen (it changes nothing). -/
theorem dying_tick_completes :
    (step finalTickState iRamLeft iNone).shipA.hp = -1 ∧
    (step finalTickState iRamLeft iNone).shipB.hp = 2 ∧
    (step finalTickState iRamLeft iNone).gameOver = true ∧
    (step finalTickState iRamLeft iNone).shipA.x = 1 ∧
    (step finalTickState iRamLeft iNone).shipA.y = 5 ∧
    step (step finalTickState iRamLeft iNone) iNone iNone =
      step finalTickState iRamLeft iNone := by decide

end Monomaxia
